import Mathlib

/-!
Shallow embedding of `src/schemathesis/runner/impl/core.py`: the execution
core of the schemathesis test runner.  Endpoints, cases and responses are
identified by natural numbers; wall-clock times are rationals (milliseconds
where the source works in milliseconds).  Python exceptions become explicit
outcome tags; generator functions become functions returning event lists.
-/

namespace Runner

/-- Outcome status of a single test invocation (`schemathesis.models.Status`). -/
inductive Status where
  | success
  | failure
  | error
deriving DecidableEq, Repr

/-- One recorded check outcome (`schemathesis.models.Check`):
`{name, value, example, message}` where `example` is the Case the check ran on.
The `example` field is spelled `exampleCase` here because `example` is a Lean
keyword. -/
structure CheckRecord where
  name : String
  status : Status
  exampleCase : Option Nat
  message : Option String
deriving DecidableEq, Repr

/-- The behaviour of one check predicate when invoked with `(response, case)`:
it may return a falsy value (pass), return a truthy value (the source binds it
to `skip_check` and records nothing), or raise an `AssertionError` carrying a
message (possibly empty). -/
inductive CheckOutcome where
  | pass
  | skip
  | fail (msg : String)
deriving DecidableEq, Repr

/-- State accumulated by `run_checks`: the names invoked (in order), the checks
appended to `result` (the `TestResult`), the checks appended to the local
`check_results` list (later handed to interaction persistence), and the
collected error messages. -/
structure ChecksState where
  invoked : List String
  resultChecks : List CheckRecord
  checkResults : List CheckRecord
  errors : List String
deriving DecidableEq, Repr

/-- `result.add_success(name, case)` / `check_results.append(Check(name, Status.success, case))`. -/
def successRecord (name : String) (case : Nat) : CheckRecord :=
  ⟨name, Status.success, some case, none⟩

/-- `result.add_failure(name, case, message)` / failure `Check` appended to `check_results`. -/
def failureRecord (name : String) (case : Nat) (message : String) : CheckRecord :=
  ⟨name, Status.failure, some case, some message⟩

/-- The per-predicate loop of `run_checks`: invoke each check once with
`(response, case)`; a falsy return records a success on both lists, a truthy
return records nothing, an `AssertionError` (message defaulted when empty)
records a failure on both lists and collects the error. -/
def runChecksLoop (case : Nat) : List (String × CheckOutcome) → ChecksState
  | [] => ⟨[], [], [], []⟩
  | (name, outcome) :: rest =>
    let st := runChecksLoop case rest
    match outcome with
    | CheckOutcome.pass =>
        ⟨name :: st.invoked, successRecord name case :: st.resultChecks,
         successRecord name case :: st.checkResults, st.errors⟩
    | CheckOutcome.skip =>
        ⟨name :: st.invoked, st.resultChecks, st.checkResults, st.errors⟩
    | CheckOutcome.fail msg =>
        let message := if msg = "" then "Check '" ++ name ++ "' failed" else msg
        ⟨name :: st.invoked, failureRecord name case message :: st.resultChecks,
         failureRecord name case message :: st.checkResults, message :: st.errors⟩

/-- Message of the synthetic response-time check:
`f"Response time exceeded the limit of {max_response_time} ms"`. -/
def responseTimeMessage (budget : Nat) : String :=
  "Response time exceeded the limit of " ++ toString budget ++ " ms"

/-- `run_checks(case, checks, check_results, result, response, elapsed_time,
max_response_time)`: runs every predicate, then — when `max_response_time` is
truthy (Python treats both `None` and `0` as false) — records the synthetic
`max_response_time` check on `result` only.  Returns the final state and
whether the grouped `CheckFailed` exception is raised (`if errors:`). -/
def run_checks (case : Nat) (checks : List (String × CheckOutcome))
    (elapsed_time : ℚ) (max_response_time : Option Nat) : ChecksState × Bool :=
  let st := runChecksLoop case checks
  let st :=
    match max_response_time with
    | none => st
    | some budget =>
        if budget = 0 then st
        else if elapsed_time > (budget : ℚ) then
          let message := responseTimeMessage budget
          { st with
            resultChecks := st.resultChecks ++ [failureRecord "max_response_time" case message],
            errors := st.errors ++ [message] }
        else
          { st with resultChecks := st.resultChecks ++ [successRecord "max_response_time" case] }
  (st, st.errors ≠ [])

/-- `prepare_timeout`: request timeout is configured in milliseconds, the
transport (`requests`) takes seconds. -/
def prepare_timeout (timeout : Option Nat) : Option ℚ :=
  match timeout with
  | none => none
  | some t => some ((t : ℚ) / 1000)

/-- Result of one transport test body (the shared tail of `_network_test`,
`_wsgi_test` and `_asgi_test` after the transport call itself, which is an
external collaborator).  `stored` is the argument pair handed to the
interaction-persistence call (`result.store_requests_response(response,
status, check_results)` / `store_wsgi_response`), present when
`store_interactions` is set; `feedbackAdded` records whether
`feedback.add_test_case(case, response)` was reached. -/
structure BodyResult where
  resultChecks : List CheckRecord
  stored : Option (Status × List CheckRecord)
  feedbackAdded : Bool
  raisedCheckFailed : Bool
deriving DecidableEq, Repr

/-- The body of `_network_test` (identically `_wsgi_test` / `_asgi_test`) from
the `run_checks` call on: `status = Status.success`; `try: run_checks(...)`;
`except CheckFailed: status = Status.failure; raise`; `finally: if
store_interactions: result.store_..._response(response, status,
check_results)`; then `feedback.add_test_case(case, response)` — the last line
is reached only when `run_checks` did not raise, because the `except` clause
re-raises. -/
def network_test_body (case : Nat) (checks : List (String × CheckOutcome))
    (elapsed_ms : ℚ) (max_response_time : Option Nat) (store_interactions : Bool) : BodyResult :=
  let out := run_checks case checks elapsed_ms max_response_time
  let raised := out.2
  let status := if raised then Status.failure else Status.success
  { resultChecks := out.1.resultChecks
    stored := if store_interactions then some (status, out.1.checkResults) else none
    feedbackAdded := !raised
    raisedCheckFailed := raised }

/-- One recorded error on a `TestResult` (`result.add_error(exception,
example)`); `message` is the exception text, `exampleCase` the optional Case
attached to it. -/
structure ErrorRecord where
  message : String
  exampleCase : Option Nat
deriving DecidableEq, Repr

/-- The slice of `schemathesis.models.TestResult` that `run_test` builds:
collected checks, collected errors, and the `mark_errored` flag.  (Seed,
interaction and log bookkeeping are not modelled; no claim mentions them.) -/
structure TestResultModel where
  endpoint : Nat
  checks : List CheckRecord
  errors : List ErrorRecord
  errored : Bool
deriving DecidableEq, Repr

/-- Which exception (if any) escapes the driven-test invocation, one
constructor per `except` arm of `run_test`, in the source's order.  The
`assertionError` arm carries the formatted traceback inspected by `reraise`. -/
inductive Raised where
  | ok
  | checkFailed
  | flaky
  | unsatisfiable
  | keyboardInterrupt
  | assertionError (traceback : String)
  | otherError (msg : String)
deriving DecidableEq, Repr

/-- Observable effect of invoking the driven test function once: the checks it
recorded on the shared `TestResult` before returning or raising, and the
exception that escaped (if any).  The generation engine driving the transport
body is an external collaborator, so its outcome is an input here. -/
structure Invocation where
  checksRecorded : List CheckRecord
  raised : Raised
deriving DecidableEq, Repr

/-- The `test` argument of `run_test`: either an `InvalidSchema` error marker
(the endpoint could not be turned into a runnable test; carries the exception
message) or a runnable driven test with its invocation outcome. -/
inductive DrivenTest where
  | invalidSchema (msg : String)
  | runnable (inv : Invocation)
deriving DecidableEq, Repr

/-- `schemathesis.runner.events.ExecutionEvent` variants.  `AfterExecution`
carries the `TestResult` appended to the `TestResultSet` just before the event
is yielded; `Finished` carries the accumulated `TestResultSet`. -/
inductive Event where
  | Initialized
  | BeforeExecution (endpoint : Nat) (recursion_level : Nat)
  | AfterExecution (endpoint : Nat) (status : Status) (result : TestResultModel)
  | Interrupted
  | Finished (results : List TestResultModel)
deriving DecidableEq, Repr

/-- Error text synthesized in the `hypothesis.errors.Flaky` arm of `run_test`. -/
def flakyMessage : String :=
  "Tests on this endpoint produce unreliable results: \nFalsified on the first call but did not on a subsequent one"

/-- Error text synthesized in the `hypothesis.errors.Unsatisfiable` arm. -/
def unsatisfiableMessage : String :=
  "Unable to satisfy schema parameters for this endpoint"

/-- `reraise`: turn a bare `AssertionError` (from `hypothesis-jsonschema`) into
an `InvalidSchema` message by substring-matching the formatted traceback. -/
def reraise (traceback : String) : String :=
  if List.IsInfix ("assert type_ in TYPE_STRINGS").toList traceback.toList then "Invalid type name"
  else "Unknown schema error"

/-- `run_test`: one single-test invocation.  Yields `BeforeExecution`, runs the
driven test, classifies the outcome per the `except` chain, appends the
`TestResult` to the result set and yields `AfterExecution` — except for
`KeyboardInterrupt`, which yields `Interrupted` and returns without appending.
In the `Flaky` arm the synthesized error carries
`result.checks[-1].example` when `result.checks` is non-empty, else no example. -/
def run_test (endpoint : Nat) (test : DrivenTest) (recursion_level : Nat) : List Event :=
  let before := Event.BeforeExecution endpoint recursion_level
  match test with
  | DrivenTest.invalidSchema msg =>
      let result : TestResultModel := ⟨endpoint, [], [⟨msg, none⟩], false⟩
      [before, Event.AfterExecution endpoint Status.error result]
  | DrivenTest.runnable inv =>
      let base : TestResultModel := ⟨endpoint, inv.checksRecorded, [], false⟩
      match inv.raised with
      | Raised.ok =>
          [before, Event.AfterExecution endpoint Status.success base]
      | Raised.checkFailed =>
          [before, Event.AfterExecution endpoint Status.failure base]
      | Raised.flaky =>
          let flakyExample :=
            match base.checks.getLast? with
            | some c => c.exampleCase
            | none => none
          let result := { base with errored := true, errors := [⟨flakyMessage, flakyExample⟩] }
          [before, Event.AfterExecution endpoint Status.error result]
      | Raised.unsatisfiable =>
          [before, Event.AfterExecution endpoint Status.error
            { base with errors := [⟨unsatisfiableMessage, none⟩] }]
      | Raised.keyboardInterrupt =>
          [before, Event.Interrupted]
      | Raised.assertionError traceback =>
          [before, Event.AfterExecution endpoint Status.error
            { base with errors := [⟨reraise traceback, none⟩] }]
      | Raised.otherError msg =>
          [before, Event.AfterExecution endpoint Status.error
            { base with errors := [⟨msg, none⟩] }]

/-- One node of the run's test tree: an endpoint with its driven test, plus
the triples that `feedback.get_stateful_tests` would yield for the next
recursion level (what the Feedback accumulator collected while this test ran). -/
inductive TestSpec where
  | node (endpoint : Nat) (test : DrivenTest) (children : List TestSpec)

/-- `isinstance(event, events.Interrupted)`. -/
def isInterrupted : Event → Bool
  | Event.Interrupted => true
  | _ => false

/-- `BaseRunner._run_tests`: returns immediately when `recursion_level >
stateful_recursion_limit`; otherwise, per yielded triple, forwards all
`run_test` events — returning as soon as an `Interrupted` event is observed —
then recurses at `recursion_level + 1` on the tests derived from the feedback
collected for that endpoint, and continues with the remaining triples. -/
def run_tests (limit : Nat) : Nat → List TestSpec → List Event
  | level, specs =>
    if limit < level then []
    else
      match specs with
      | [] => []
      | TestSpec.node e t children :: rest =>
          let evts := run_test e t level
          if evts.any isInterrupted then evts
          else evts ++ run_tests limit (level + 1) children ++ run_tests limit level rest
termination_by _ specs => sizeOf specs

/-- The result appended to the `TestResultSet` when `event` was produced:
`run_test` appends exactly one result immediately before yielding
`AfterExecution` (and the event carries it), and appends nothing otherwise. -/
def resultOf : Event → List TestResultModel
  | Event.AfterExecution _ _ r => [r]
  | _ => []

/-- All results appended while producing the given event sequence. -/
def resultsOf : List Event → List TestResultModel
  | [] => []
  | e :: rest => resultOf e ++ resultsOf rest

/-- The early-stop test of `BaseRunner.execute`: `self.exit_first and
isinstance(event, events.AfterExecution) and event.status in (Status.error,
Status.failure)`. -/
def stopsEarly (exit_first : Bool) : Event → Bool
  | Event.AfterExecution _ s _ => exit_first && (s == Status.error || s == Status.failure)
  | _ => false

/-- The forwarding loop of `BaseRunner.execute`: consume delegated events one
by one; when the early-stop test fires, `break` *before* yielding that event
(its `TestResult` has already been appended by `run_test`); otherwise yield it
and continue.  Returns the forwarded events and the accumulated result set. -/
def consume (exit_first : Bool) : List Event → List Event × List TestResultModel
  | [] => ([], [])
  | ev :: rest =>
      if stopsEarly exit_first ev then ([], resultOf ev)
      else
        let r := consume exit_first rest
        (ev :: r.1, resultOf ev ++ r.2)

/-- `BaseRunner.execute` over an arbitrary delegated event stream (the
subclass `_execute` implementations are outside this file's source; per the
spec they delegate to the Recursive Test Scheduler): yield `Initialized`,
forward delegated events subject to the `exit_first` early stop, then yield
`Finished` with the accumulated `TestResultSet` — unconditionally. -/
def execute (exit_first : Bool) (delegated : List Event) : List Event :=
  let c := consume exit_first delegated
  Event.Initialized :: c.1 ++ [Event.Finished c.2]

/-- A whole run: `execute` delegating to the scheduler at recursion level 0. -/
def executeRun (exit_first : Bool) (limit : Nat) (specs : List TestSpec) : List Event :=
  execute exit_first (run_tests limit 0 specs)

/-- `isinstance(event, events.AfterExecution)`. -/
def isAfterExecution : Event → Bool
  | Event.AfterExecution _ _ _ => true
  | _ => false

/-- `isinstance(event, events.Finished)`. -/
def isFinished : Event → Bool
  | Event.Finished _ => true
  | _ => false

/-- Python truthiness of the `max_response_time` configuration value
(`if max_response_time:`): both `None` and `0` are falsy. -/
def budgetActive (b : Option Nat) : Bool :=
  !(b.getD 0 == 0)

/-- Whether invoking this driven test raises `KeyboardInterrupt`. -/
def isInterruptingTest : DrivenTest → Bool
  | DrivenTest.runnable ⟨_, Raised.keyboardInterrupt⟩ => true
  | _ => false

/-- Number of invocations in the test tree that would raise
`KeyboardInterrupt`: a single user interruption (one Ctrl-C) corresponds to a
run whose tree holds at most one such invocation. -/
def interruptCount : List TestSpec → Nat
  | [] => 0
  | TestSpec.node _ t children :: rest =>
      (if isInterruptingTest t then 1 else 0) + interruptCount children + interruptCount rest
termination_by specs => sizeOf specs

end Runner

namespace Runner

/-! Helper lemmas about the check-aggregator loop. -/

theorem runChecksLoop_invoked (case : Nat) (checks : List (String × CheckOutcome)) :
    (runChecksLoop case checks).invoked = checks.map Prod.fst := by
  induction checks with
  | nil => rfl
  | cons p rest ih =>
      obtain ⟨name, outcome⟩ := p
      cases outcome <;> simp [runChecksLoop, ih]

theorem runChecksLoop_lists_eq (case : Nat) (checks : List (String × CheckOutcome)) :
    (runChecksLoop case checks).checkResults = (runChecksLoop case checks).resultChecks := by
  induction checks with
  | nil => rfl
  | cons p rest ih =>
      obtain ⟨name, outcome⟩ := p
      cases outcome <;> simp [runChecksLoop, ih]

theorem runChecksLoop_length (case : Nat) (checks : List (String × CheckOutcome)) :
    (runChecksLoop case checks).resultChecks.length
      = checks.countP (fun p => !(p.2 == CheckOutcome.skip)) := by
  induction checks with
  | nil => rfl
  | cons p rest ih =>
      obtain ⟨name, outcome⟩ := p
      cases outcome <;> simp [runChecksLoop, ih, List.countP_cons]

theorem runChecksLoop_names (case : Nat) (checks : List (String × CheckOutcome)) :
    ∀ c ∈ (runChecksLoop case checks).checkResults, c.name ∈ checks.map Prod.fst := by
  induction checks with
  | nil => intro c hc; simp [runChecksLoop] at hc
  | cons p rest ih =>
      obtain ⟨name, outcome⟩ := p
      intro c hc
      simp only [List.map_cons, List.mem_cons]
      cases outcome with
      | pass =>
          simp only [runChecksLoop, List.mem_cons] at hc
          rcases hc with rfl | hc
          · exact Or.inl rfl
          · exact Or.inr (ih c hc)
      | skip =>
          simp only [runChecksLoop] at hc
          exact Or.inr (ih c hc)
      | fail msg =>
          simp only [runChecksLoop, List.mem_cons] at hc
          rcases hc with rfl | hc
          · exact Or.inl rfl
          · exact Or.inr (ih c hc)

theorem run_checks_invoked (case : Nat) (checks : List (String × CheckOutcome))
    (elapsed : ℚ) (budget : Option Nat) :
    (run_checks case checks elapsed budget).1.invoked = (runChecksLoop case checks).invoked := by
  unfold run_checks
  cases budget with
  | none => rfl
  | some B => by_cases hB : B = 0 <;> by_cases he : elapsed > (B : ℚ) <;> simp [hB, he]

theorem run_checks_checkResults (case : Nat) (checks : List (String × CheckOutcome))
    (elapsed : ℚ) (budget : Option Nat) :
    (run_checks case checks elapsed budget).1.checkResults
      = (runChecksLoop case checks).checkResults := by
  unfold run_checks
  cases budget with
  | none => rfl
  | some B => by_cases hB : B = 0 <;> by_cases he : elapsed > (B : ℚ) <;> simp [hB, he]

theorem run_checks_resultChecks (case : Nat) (checks : List (String × CheckOutcome))
    (elapsed : ℚ) (B : Nat) (hB : B ≠ 0) :
    (run_checks case checks elapsed (some B)).1.resultChecks
      = (runChecksLoop case checks).resultChecks
        ++ (if elapsed > (B : ℚ) then
              [failureRecord "max_response_time" case (responseTimeMessage B)]
            else [successRecord "max_response_time" case]) := by
  unfold run_checks
  by_cases he : elapsed > (B : ℚ) <;> simp [hB, he]

theorem run_checks_resultChecks_inactive (case : Nat) (checks : List (String × CheckOutcome))
    (elapsed : ℚ) (budget : Option Nat) (hb : budgetActive budget = false) :
    (run_checks case checks elapsed budget).1.resultChecks
      = (runChecksLoop case checks).resultChecks := by
  cases budget with
  | none => rfl
  | some B =>
      have hB : B = 0 := by simpa [budgetActive] using hb
      subst hB
      unfold run_checks
      simp

/-! Statements settling the claims about the check aggregator, the transport
test bodies and the timeout conversion. -/

/-- Claim C7 (confirmed): a configured request timeout of `T` milliseconds is
passed to the transport as exactly `T/1000` seconds, and a missing (`None`)
timeout stays absent at the transport boundary. -/
theorem claim_C7 (T : Nat) :
    prepare_timeout (some T) = some ((T : ℚ) / 1000) ∧ prepare_timeout none = none :=
  ⟨rfl, rfl⟩

/-- Claim C4, counterexample: with a configured response-time budget of `0` ms
(`max_response_time = some 0` — Python's `if max_response_time:` treats it as
falsy), the synthetic `max_response_time` check is not recorded at all, so the
last recorded Check is the ordinary predicate's, contradicting the claim that
the synthetic check is last whenever a budget is configured. -/
theorem claim_C4_counterexample :
    (run_checks 7 [("a", CheckOutcome.pass)] 5 (some 0)).1.resultChecks.getLast?
      = some (successRecord "a" 7)
    ∧ (successRecord "a" 7).name ≠ "max_response_time" := by
  decide

/-- Claim C4 (amended): every predicate in the list is invoked exactly once
with `(response, case)`, in order, regardless of the outcomes of earlier
predicates (no short-circuiting); and when a *positive* response-time budget
is configured, the synthetic `max_response_time` check is the last Check
recorded on the TestResult for that call. -/
theorem claim_C4_amended (case : Nat) (checks : List (String × CheckOutcome))
    (elapsed : ℚ) (budget : Option Nat) :
    (run_checks case checks elapsed budget).1.invoked = checks.map Prod.fst
    ∧ ∀ B, budget = some B → 0 < B →
        ((run_checks case checks elapsed budget).1.resultChecks.getLast?).map CheckRecord.name
          = some "max_response_time" := by
  constructor
  · rw [run_checks_invoked, runChecksLoop_invoked]
  · rintro B rfl hB
    rw [run_checks_resultChecks case checks elapsed B (Nat.pos_iff_ne_zero.mp hB)]
    by_cases he : elapsed > (B : ℚ) <;>
      simp [he, List.getLast?_concat, failureRecord, successRecord]

/-- Claim C4, witness: a failing check with an empty message followed by a
passing check, budget 100 ms, elapsed 150 ms — both predicates are invoked
once, and the synthetic check is recorded last. -/
theorem claim_C4_witness :
    (run_checks 7 [("a", CheckOutcome.fail ""), ("b", CheckOutcome.pass)] 150 (some 100)).1.invoked
      = ["a", "b"]
    ∧ ((run_checks 7 [("a", CheckOutcome.fail ""), ("b", CheckOutcome.pass)] 150
          (some 100)).1.resultChecks.getLast?).map CheckRecord.name
      = some "max_response_time" :=
  ⟨(claim_C4_amended 7 [("a", CheckOutcome.fail ""), ("b", CheckOutcome.pass)] 150 (some 100)).1,
   (claim_C4_amended 7 [("a", CheckOutcome.fail ""), ("b", CheckOutcome.pass)] 150 (some 100)).2
     100 rfl (by norm_num)⟩

/-- Claim C5, counterexample: a predicate that returns a truthy value (the
source binds it to `skip_check`) is invoked but leaves the recorded Check list
unchanged — no Check entry is recorded for it, contradicting "no predicate's
invocation leaves the recorded Check list unchanged". -/
theorem claim_C5_counterexample :
    (run_checks 7 [("a", CheckOutcome.skip)] 5 none).1.invoked = ["a"]
    ∧ (run_checks 7 [("a", CheckOutcome.skip)] 5 none).1.resultChecks = [] := by
  decide

/-- Claim C5 (amended): every call records exactly one Check entry per
predicate that does not signal "skip" (falsy return or assertion failure),
plus exactly one synthetic entry when the budget is truthy; a predicate
returning a truthy skip marker records nothing. -/
theorem claim_C5_amended (case : Nat) (checks : List (String × CheckOutcome))
    (elapsed : ℚ) (budget : Option Nat) :
    (run_checks case checks elapsed budget).1.resultChecks.length
      = checks.countP (fun p => !(p.2 == CheckOutcome.skip))
        + (if budgetActive budget then 1 else 0)
    ∧ ∀ name rest, (runChecksLoop case ((name, CheckOutcome.skip) :: rest)).resultChecks
        = (runChecksLoop case rest).resultChecks := by
  constructor
  · cases hb : budgetActive budget with
    | false =>
        rw [run_checks_resultChecks_inactive _ _ _ _ hb, runChecksLoop_length]
        simp
    | true =>
        obtain ⟨B, rfl, hB⟩ : ∃ B, budget = some B ∧ B ≠ 0 := by
          cases budget with
          | none => simp [budgetActive] at hb
          | some B => exact ⟨B, rfl, by simpa [budgetActive] using hb⟩
        rw [run_checks_resultChecks _ _ _ _ hB]
        by_cases he : elapsed > (B : ℚ) <;> simp [he, runChecksLoop_length]
  · intro name rest
    simp [runChecksLoop]

/-- Claim C8, counterexample: with budget `some 0` and elapsed `5 > 0` ms the
claim demands a failing `max_response_time` Check, but the source's truthiness
test `if max_response_time:` skips the synthetic check entirely: nothing is
recorded. -/
theorem claim_C8_counterexample :
    ((5 : ℚ) > ((0 : Nat) : ℚ))
    ∧ (run_checks 7 [] 5 (some 0)).1.resultChecks = [] :=
  ⟨by norm_num, rfl⟩

/-- Claim C8 (amended): for every *positive* configured budget `B` ms and
elapsed time `E` ms, a failing Check named `max_response_time` with message
"Response time exceeded the limit of `B` ms" is recorded iff `E > B`, and a
success Check named `max_response_time` is recorded otherwise. -/
theorem claim_C8_amended (case : Nat) (checks : List (String × CheckOutcome))
    (elapsed : ℚ) (B : Nat) (hB : 0 < B) :
    (elapsed > (B : ℚ) →
      (run_checks case checks elapsed (some B)).1.resultChecks
        = (runChecksLoop case checks).resultChecks
          ++ [failureRecord "max_response_time" case (responseTimeMessage B)])
    ∧ (¬ elapsed > (B : ℚ) →
      (run_checks case checks elapsed (some B)).1.resultChecks
        = (runChecksLoop case checks).resultChecks
          ++ [successRecord "max_response_time" case]) := by
  have hB' := Nat.pos_iff_ne_zero.mp hB
  constructor <;> intro he <;> rw [run_checks_resultChecks _ _ _ _ hB'] <;> simp [he]

/-- Claim C8, witness: budget 100 ms with elapsed 150 ms records the failing
synthetic check; with elapsed 50 ms it records the success synthetic check. -/
theorem claim_C8_witness :
    ((0 : Nat) < 100)
    ∧ (run_checks 7 [] 150 (some 100)).1.resultChecks
        = [failureRecord "max_response_time" 7 (responseTimeMessage 100)]
    ∧ (run_checks 7 [] 50 (some 100)).1.resultChecks
        = [successRecord "max_response_time" 7] := by
  refine ⟨by norm_num, ?_, ?_⟩
  · have h := (claim_C8_amended 7 [] 150 100 (by norm_num)).1 (by norm_num)
    simpa [runChecksLoop] using h
  · have h := (claim_C8_amended 7 [] 50 100 (by norm_num)).2 (by norm_num)
    simpa [runChecksLoop] using h

/-- Claim C3, counterexample: when a check fails, `run_checks` raises the
grouped `CheckFailed`, the `except` clause re-raises it, and the
`feedback.add_test_case(case, response)` line below the `try` block is never
reached — the (case, response) pair is *not* added on the failure path. -/
theorem claim_C3_counterexample :
    (network_test_body 7 [("a", CheckOutcome.fail "boom")] 5 none true).raisedCheckFailed = true
    ∧ (network_test_body 7 [("a", CheckOutcome.fail "boom")] 5 none true).feedbackAdded = false := by
  decide

/-- Claim C3 (amended): the `(case, response)` pair is added to the Stateful
Feedback accumulator iff the check aggregation did not raise a grouped check
failure — capture happens on the success path only, not on the failure path. -/
theorem claim_C3_amended (case : Nat) (checks : List (String × CheckOutcome))
    (elapsed : ℚ) (budget : Option Nat) (store : Bool) :
    (network_test_body case checks elapsed budget store).feedbackAdded
      = !(network_test_body case checks elapsed budget store).raisedCheckFailed
    ∧ ((run_checks case checks elapsed budget).2 = false →
        (network_test_body case checks elapsed budget store).feedbackAdded = true) := by
  constructor
  · simp [network_test_body]
  · intro h
    simp [network_test_body, h]

/-- Claim C3, witness: a passing check list does reach the feedback capture. -/
theorem claim_C3_witness :
    (run_checks 7 [("a", CheckOutcome.pass)] 5 none).2 = false
    ∧ (network_test_body 7 [("a", CheckOutcome.pass)] 5 none true).feedbackAdded = true :=
  ⟨by decide, (claim_C3_amended 7 [("a", CheckOutcome.pass)] 5 none true).2 (by decide)⟩

/-- Claim C10 (confirmed): the synthetic `max_response_time` check (success or
failure) is recorded on the TestResult but never appended to the
`check_results` list handed to interaction persistence; provided no ordinary
predicate shares the name `max_response_time`, the stored interaction's check
list never contains a `max_response_time` entry, while ordinary predicate
outcomes (success and failure alike) are exactly the entries handed to
persistence. -/
theorem claim_C10 (case : Nat) (checks : List (String × CheckOutcome))
    (elapsed : ℚ) (budget : Option Nat)
    (hname : "max_response_time" ∉ checks.map Prod.fst) :
    (∀ B, budget = some B → 0 < B → elapsed > (B : ℚ) →
        failureRecord "max_response_time" case (responseTimeMessage B)
          ∈ (run_checks case checks elapsed budget).1.resultChecks)
    ∧ (∀ c ∈ (run_checks case checks elapsed budget).1.checkResults,
        c.name ≠ "max_response_time")
    ∧ (runChecksLoop case checks).checkResults = (runChecksLoop case checks).resultChecks
    ∧ (network_test_body case checks elapsed budget true).stored
        = some (if (run_checks case checks elapsed budget).2 then Status.failure
                else Status.success,
                (run_checks case checks elapsed budget).1.checkResults) := by
  refine ⟨?_, ?_, runChecksLoop_lists_eq case checks, ?_⟩
  · rintro B rfl hB he
    rw [run_checks_resultChecks _ _ _ _ (Nat.pos_iff_ne_zero.mp hB)]
    simp [he]
  · intro c hc hcontra
    rw [run_checks_checkResults] at hc
    have hmem := runChecksLoop_names case checks c hc
    rw [hcontra] at hmem
    exact hname hmem
  · simp [network_test_body]

/-! Helper lemmas about the event stream of the Run Controller and the
Recursive Test Scheduler. -/

theorem stopsEarly_false (ev : Event) : stopsEarly false ev = false := by
  cases ev <;> simp [stopsEarly]

theorem resultsOf_append (a b : List Event) :
    resultsOf (a ++ b) = resultsOf a ++ resultsOf b := by
  induction a with
  | nil => simp [resultsOf]
  | cons e rest ih => simp [resultsOf, ih]

theorem resultsOf_length (evs : List Event) :
    (resultsOf evs).length = evs.countP isAfterExecution := by
  induction evs with
  | nil => rfl
  | cons ev rest ih =>
      cases ev <;> simp [resultsOf, resultOf, isAfterExecution, List.countP_cons, ih]

theorem consume_of_no_stop (x : Bool) (evs : List Event)
    (h : ∀ ev ∈ evs, stopsEarly x ev = false) :
    consume x evs = (evs, resultsOf evs) := by
  induction evs with
  | nil => rfl
  | cons ev rest ih =>
      have hev : stopsEarly x ev = false := h ev (List.mem_cons_self _ _)
      simp [consume, hev, resultsOf, ih fun e he => h e (List.mem_cons_of_mem _ he)]

theorem consume_false (evs : List Event) : consume false evs = (evs, resultsOf evs) :=
  consume_of_no_stop false evs fun ev _ => stopsEarly_false ev

theorem consume_stop (x : Bool) (pre : List Event) (ev : Event) (post : List Event)
    (hpre : ∀ e ∈ pre, stopsEarly x e = false) (hev : stopsEarly x ev = true) :
    consume x (pre ++ ev :: post) = (pre, resultsOf pre ++ resultOf ev) := by
  induction pre with
  | nil => simp [consume, hev, resultsOf]
  | cons p ps ih =>
      have hp : stopsEarly x p = false := hpre p (List.mem_cons_self _ _)
      simp [consume, hp, resultsOf, ih fun e he => hpre e (List.mem_cons_of_mem _ he),
        List.append_assoc]

theorem execute_false (delegated : List Event) :
    execute false delegated
      = Event.Initialized :: delegated ++ [Event.Finished (resultsOf delegated)] := by
  simp [execute, consume_false]

theorem run_test_before_level (e : Nat) (t : DrivenTest) (l e' l' : Nat)
    (h : Event.BeforeExecution e' l' ∈ run_test e t l) : e' = e ∧ l' = l := by
  cases t with
  | invalidSchema msg => simp [run_test] at h; exact h
  | runnable inv =>
      obtain ⟨cs, r⟩ := inv
      cases r <;> simp [run_test] at h <;> exact h

theorem run_test_no_finished (e : Nat) (t : DrivenTest) (l : Nat) :
    ∀ ev ∈ run_test e t l, isFinished ev = false := by
  intro ev hev
  cases t with
  | invalidSchema msg =>
      simp [run_test] at hev
      rcases hev with rfl | rfl <;> rfl
  | runnable inv =>
      obtain ⟨cs, r⟩ := inv
      cases r <;> simp [run_test] at hev <;> rcases hev with rfl | rfl <;> rfl

theorem run_tests_gt (limit level : Nat) (specs : List TestSpec) (h : limit < level) :
    run_tests limit level specs = [] := by
  unfold run_tests
  simp [h]

theorem run_tests_before_level (limit level : Nat) (specs : List TestSpec) :
    ∀ e' l', Event.BeforeExecution e' l' ∈ run_tests limit level specs
      → level ≤ l' ∧ l' ≤ limit := by
  induction level, specs using run_tests.induct limit with
  | case1 level specs h =>
      intro e' l' hm
      rw [run_tests_gt _ _ _ h] at hm
      simp at hm
  | case2 level h =>
      intro e' l' hm
      unfold run_tests at hm
      simp [h] at hm
  | case3 level h e t children rest evts hi =>
      intro e' l' hm
      have hi' : (run_test e t level).any isInterrupted = true := hi
      unfold run_tests at hm
      simp [h, hi'] at hm
      obtain ⟨-, rfl⟩ := run_test_before_level e t level e' l' hm
      exact ⟨Nat.le_refl _, Nat.le_of_not_lt h⟩
  | case4 level h e t children rest evts hni ihc ihr =>
      intro e' l' hm
      have hni' : (run_test e t level).any isInterrupted = false := by simpa using hni
      unfold run_tests at hm
      simp [h, hni'] at hm
      rcases hm with hm | hm | hm
      · obtain ⟨-, rfl⟩ := run_test_before_level e t level e' l' hm
        exact ⟨Nat.le_refl _, Nat.le_of_not_lt h⟩
      · obtain ⟨h1, h2⟩ := ihc e' l' hm
        exact ⟨Nat.le_of_succ_le h1, h2⟩
      · exact ihr e' l' hm

theorem run_tests_no_finished (limit level : Nat) (specs : List TestSpec) :
    ∀ ev ∈ run_tests limit level specs, isFinished ev = false := by
  induction level, specs using run_tests.induct limit with
  | case1 level specs h =>
      intro ev hm
      rw [run_tests_gt _ _ _ h] at hm
      simp at hm
  | case2 level h =>
      intro ev hm
      unfold run_tests at hm
      simp [h] at hm
  | case3 level h e t children rest evts hi =>
      intro ev hm
      have hi' : (run_test e t level).any isInterrupted = true := hi
      unfold run_tests at hm
      simp [h, hi'] at hm
      exact run_test_no_finished e t level ev hm
  | case4 level h e t children rest evts hni ihc ihr =>
      intro ev hm
      have hni' : (run_test e t level).any isInterrupted = false := by simpa using hni
      unfold run_tests at hm
      simp [h, hni'] at hm
      rcases hm with hm | hm | hm
      · exact run_test_no_finished e t level ev hm
      · exact ihc ev hm
      · exact ihr ev hm

theorem run_test_interrupted_count (e : Nat) (t : DrivenTest) (l : Nat) :
    (run_test e t l).countP isInterrupted = if isInterruptingTest t then 1 else 0 := by
  cases t with
  | invalidSchema msg => rfl
  | runnable inv =>
      obtain ⟨cs, r⟩ := inv
      cases r <;> rfl

theorem run_tests_interrupted_le (limit level : Nat) (specs : List TestSpec) :
    (run_tests limit level specs).countP isInterrupted ≤ interruptCount specs := by
  induction level, specs using run_tests.induct limit with
  | case1 level specs h =>
      rw [run_tests_gt _ _ _ h]
      simp
  | case2 level h =>
      unfold run_tests
      simp [h, interruptCount]
  | case3 level h e t children rest evts hi =>
      have hi' : (run_test e t level).any isInterrupted = true := hi
      unfold run_tests
      simp only [h, hi', if_true, if_false]
      rw [run_test_interrupted_count, interruptCount]
      exact Nat.le_trans (Nat.le_add_right _ _) (Nat.le_add_right _ _)
  | case4 level h e t children rest evts hni ihc ihr =>
      have hni' : (run_test e t level).any isInterrupted = false := by simpa using hni
      unfold run_tests
      simp only [h, hni', Bool.false_eq_true, if_true, if_false]
      rw [interruptCount]
      simp only [List.countP_append, run_test_interrupted_count]
      by_cases hp : isInterruptingTest t <;> simp [hp] <;> omega

/-! Statements settling the claims about the Run Controller, the Recursive
Test Scheduler and the Single-Test State Machine. -/

/-- Claim C1, counterexample: with `exit_first` set and the first endpoint
failing, `execute` breaks *before* yielding the triggering `AfterExecution`
(the `break` precedes the `yield` in the loop body), so that event never
appears in the output stream — contradicting the claim that it does.
`Finished` is still emitted, carrying the already-appended result. -/
theorem claim_C1_counterexample :
    executeRun true 1
      [TestSpec.node 0 (DrivenTest.runnable ⟨[failureRecord "a" 0 "bad"], Raised.checkFailed⟩) [],
       TestSpec.node 1 (DrivenTest.runnable ⟨[], Raised.ok⟩) []]
      = [Event.Initialized, Event.BeforeExecution 0 0,
         Event.Finished [⟨0, [failureRecord "a" 0 "bad"], [], false⟩]]
    ∧ (executeRun true 1
        [TestSpec.node 0 (DrivenTest.runnable ⟨[failureRecord "a" 0 "bad"], Raised.checkFailed⟩) [],
         TestSpec.node 1 (DrivenTest.runnable ⟨[], Raised.ok⟩) []]).any isAfterExecution
      = false := by
  have h : executeRun true 1
      [TestSpec.node 0 (DrivenTest.runnable ⟨[failureRecord "a" 0 "bad"], Raised.checkFailed⟩) [],
       TestSpec.node 1 (DrivenTest.runnable ⟨[], Raised.ok⟩) []]
      = [Event.Initialized, Event.BeforeExecution 0 0,
         Event.Finished [⟨0, [failureRecord "a" 0 "bad"], [], false⟩]] := by
    simp [executeRun, execute, run_tests, run_test, consume, stopsEarly, resultOf, isInterrupted]
  exact ⟨h, by rw [h]; rfl⟩

/-- Claim C1 (amended): when "stop on first failure" is enabled and the
delegated sequence reaches an `AfterExecution` with status error or failure,
`execute` stops *before* yielding that event: the output is `Initialized`,
then exactly the delegated events strictly preceding the trigger, then a
terminal `Finished` whose result set still includes the triggering test's
already-appended result.  No later delegated event appears. -/
theorem claim_C1_amended (pre post : List Event) (e : Nat) (s : Status) (r : TestResultModel)
    (hpre : ∀ ev ∈ pre, stopsEarly true ev = false)
    (hs : s = Status.error ∨ s = Status.failure) :
    execute true (pre ++ Event.AfterExecution e s r :: post)
      = Event.Initialized :: pre ++ [Event.Finished (resultsOf pre ++ [r])] := by
  have hstop : stopsEarly true (Event.AfterExecution e s r) = true := by
    rcases hs with h | h <;> simp [h, stopsEarly]
  have hc := consume_stop true pre (Event.AfterExecution e s r) post hpre hstop
  simp [execute, hc, resultOf]

/-- Claim C1, witness: a `BeforeExecution` followed by a failing
`AfterExecution` — the output truncates before the trigger and `Finished`
carries its result. -/
theorem claim_C1_witness :
    stopsEarly true (Event.BeforeExecution 0 0) = false
    ∧ execute true
        [Event.BeforeExecution 0 0,
         Event.AfterExecution 0 Status.failure ⟨0, [], [], false⟩]
      = [Event.Initialized, Event.BeforeExecution 0 0, Event.Finished [⟨0, [], [], false⟩]] := by
  constructor
  · rfl
  · have h := claim_C1_amended [Event.BeforeExecution 0 0] [] 0 Status.failure ⟨0, [], [], false⟩
      (by decide) (Or.inr rfl)
    simpa [resultsOf, resultOf] using h

/-- Claim C2, counterexample: a user interruption in a nested (level-1)
invocation yields `Interrupted`, yet `execute` still emits a terminal
`Finished` event (the `yield events.Finished...` line runs unconditionally
after the delegation loop) — contradicting the claim that no `Finished` event
is emitted.  The interrupted invocation itself records no TestResult. -/
theorem claim_C2_counterexample :
    executeRun false 1
      [TestSpec.node 0 (DrivenTest.runnable ⟨[], Raised.ok⟩)
        [TestSpec.node 1 (DrivenTest.runnable ⟨[], Raised.keyboardInterrupt⟩) []]]
      = [Event.Initialized,
         Event.BeforeExecution 0 0,
         Event.AfterExecution 0 Status.success ⟨0, [], [], false⟩,
         Event.BeforeExecution 1 1,
         Event.Interrupted,
         Event.Finished [⟨0, [], [], false⟩]]
    ∧ (executeRun false 1
        [TestSpec.node 0 (DrivenTest.runnable ⟨[], Raised.ok⟩)
          [TestSpec.node 1 (DrivenTest.runnable ⟨[], Raised.keyboardInterrupt⟩) []]]).countP
        isFinished = 1
    ∧ (executeRun false 1
        [TestSpec.node 0 (DrivenTest.runnable ⟨[], Raised.ok⟩)
          [TestSpec.node 1 (DrivenTest.runnable ⟨[], Raised.keyboardInterrupt⟩) []]]).countP
        isInterrupted = 1 := by
  have h : executeRun false 1
      [TestSpec.node 0 (DrivenTest.runnable ⟨[], Raised.ok⟩)
        [TestSpec.node 1 (DrivenTest.runnable ⟨[], Raised.keyboardInterrupt⟩) []]]
      = [Event.Initialized,
         Event.BeforeExecution 0 0,
         Event.AfterExecution 0 Status.success ⟨0, [], [], false⟩,
         Event.BeforeExecution 1 1,
         Event.Interrupted,
         Event.Finished [⟨0, [], [], false⟩]] := by
    simp [executeRun, execute, run_tests, run_test, consume, stopsEarly, resultOf, isInterrupted]
  refine ⟨h, ?_, ?_⟩ <;> rw [h] <;> rfl

/-- Claim C2 (amended): for every run (without `exit_first`) whose test tree
holds at most one invocation that can raise `KeyboardInterrupt` (a single user
interruption) and in which the interruption actually occurs — the stream
contains an `Interrupted` event — the emitted event stream contains exactly
one `Interrupted` event, and no `TestResult` is appended for the interrupted
invocation (one `TestResult` per `AfterExecution` event; an interrupted
invocation yields only `BeforeExecution` then `Interrupted`); however the
stream still contains exactly one `Finished` event, emitted last with the
accumulated result set — contrary to the original claim's "contains no
Finished event". -/
theorem claim_C2_amended (specs : List TestSpec) (limit : Nat)
    (hone : interruptCount specs ≤ 1)
    (hocc : 1 ≤ (executeRun false limit specs).countP isInterrupted) :
    (executeRun false limit specs).countP isInterrupted = 1
    ∧ executeRun false limit specs
        = Event.Initialized :: run_tests limit 0 specs
            ++ [Event.Finished (resultsOf (run_tests limit 0 specs))]
    ∧ (executeRun false limit specs).countP isFinished = 1
    ∧ (resultsOf (run_tests limit 0 specs)).length
        = (run_tests limit 0 specs).countP isAfterExecution
    ∧ ∀ e lv cs, run_test e (DrivenTest.runnable ⟨cs, Raised.keyboardInterrupt⟩) lv
        = [Event.BeforeExecution e lv, Event.Interrupted] := by
  have hsh : executeRun false limit specs
      = Event.Initialized :: run_tests limit 0 specs
          ++ [Event.Finished (resultsOf (run_tests limit 0 specs))] := execute_false _
  have hcount : (executeRun false limit specs).countP isInterrupted
      = (run_tests limit 0 specs).countP isInterrupted := by
    rw [hsh]
    simp [List.countP_cons, List.countP_append, isInterrupted]
  have hle : (run_tests limit 0 specs).countP isInterrupted ≤ interruptCount specs :=
    run_tests_interrupted_le limit 0 specs
  refine ⟨by omega, hsh, ?_, resultsOf_length _, fun e lv cs => rfl⟩
  rw [hsh]
  have h0 : (run_tests limit 0 specs).countP isFinished = 0 :=
    List.countP_eq_zero.mpr fun a ha => by
      simp [run_tests_no_finished limit 0 specs a ha]
  simp [List.countP_cons, List.countP_append, isFinished, h0]

/-- Claim C2, witness: the nested single-interruption run — one level-0
success whose feedback-derived level-1 test is interrupted — has exactly one
interruptible invocation, its stream contains exactly one `Interrupted` event,
and still exactly one `Finished` event. -/
theorem claim_C2_witness :
    interruptCount
      [TestSpec.node 0 (DrivenTest.runnable ⟨[], Raised.ok⟩)
        [TestSpec.node 1 (DrivenTest.runnable ⟨[], Raised.keyboardInterrupt⟩) []]] ≤ 1
    ∧ (executeRun false 1
        [TestSpec.node 0 (DrivenTest.runnable ⟨[], Raised.ok⟩)
          [TestSpec.node 1 (DrivenTest.runnable ⟨[], Raised.keyboardInterrupt⟩) []]]).countP
        isInterrupted = 1
    ∧ (executeRun false 1
        [TestSpec.node 0 (DrivenTest.runnable ⟨[], Raised.ok⟩)
          [TestSpec.node 1 (DrivenTest.runnable ⟨[], Raised.keyboardInterrupt⟩) []]]).countP
        isFinished = 1 := by
  have hone : interruptCount
      [TestSpec.node 0 (DrivenTest.runnable ⟨[], Raised.ok⟩)
        [TestSpec.node 1 (DrivenTest.runnable ⟨[], Raised.keyboardInterrupt⟩) []]] ≤ 1 := by
    simp [interruptCount, isInterruptingTest]
  have hstream : executeRun false 1
      [TestSpec.node 0 (DrivenTest.runnable ⟨[], Raised.ok⟩)
        [TestSpec.node 1 (DrivenTest.runnable ⟨[], Raised.keyboardInterrupt⟩) []]]
      = [Event.Initialized,
         Event.BeforeExecution 0 0,
         Event.AfterExecution 0 Status.success ⟨0, [], [], false⟩,
         Event.BeforeExecution 1 1,
         Event.Interrupted,
         Event.Finished [⟨0, [], [], false⟩]] := by
    simp [executeRun, execute, run_tests, run_test, consume, stopsEarly, resultOf, isInterrupted]
  have hocc : 1 ≤ (executeRun false 1
      [TestSpec.node 0 (DrivenTest.runnable ⟨[], Raised.ok⟩)
        [TestSpec.node 1 (DrivenTest.runnable ⟨[], Raised.keyboardInterrupt⟩) []]]).countP
      isInterrupted := by
    rw [hstream]
    decide
  have h := claim_C2_amended
    [TestSpec.node 0 (DrivenTest.runnable ⟨[], Raised.ok⟩)
      [TestSpec.node 1 (DrivenTest.runnable ⟨[], Raised.keyboardInterrupt⟩) []]] 1 hone hocc
  exact ⟨hone, h.1, h.2.2.1⟩

/-- Claim C6, counterexample: on a flaky signal with recorded checks
`[failure(example 5), success(example 6)]`, the source attaches
`result.checks[-1].example` — the example of the *last recorded Check*
(here the success's example `6`) — not the example of the last recorded
*failing* Check (`5`), contradicting the claim. -/
theorem claim_C6_counterexample :
    run_test 0
      (DrivenTest.runnable ⟨[failureRecord "a" 5 "m", successRecord "b" 6], Raised.flaky⟩) 0
      = [Event.BeforeExecution 0 0,
         Event.AfterExecution 0 Status.error
           ⟨0, [failureRecord "a" 5 "m", successRecord "b" 6], [⟨flakyMessage, some 6⟩], true⟩]
    ∧ (failureRecord "a" 5 "m").exampleCase = some 5
    ∧ (some 6 : Option Nat) ≠ some 5 :=
  ⟨rfl, rfl, by decide⟩

/-- Claim C6 (amended): on a generation-engine flaky signal the status is
error and a synthesized error describing the inconsistency is recorded,
attaching the example of the *last recorded Check* (of either status) when
any Checks were recorded, and no example otherwise. -/
theorem claim_C6_amended (e lv : Nat) (cs : List CheckRecord) (c : CheckRecord) :
    run_test e (DrivenTest.runnable ⟨cs ++ [c], Raised.flaky⟩) lv
      = [Event.BeforeExecution e lv,
         Event.AfterExecution e Status.error
           ⟨e, cs ++ [c], [⟨flakyMessage, c.exampleCase⟩], true⟩]
    ∧ run_test e (DrivenTest.runnable ⟨[], Raised.flaky⟩) lv
      = [Event.BeforeExecution e lv,
         Event.AfterExecution e Status.error ⟨e, [], [⟨flakyMessage, none⟩], true⟩] := by
  constructor
  · simp [run_test, List.getLast?_concat]
  · rfl

/-- Claim C9 (confirmed): a scheduler call at a recursion level strictly
greater than `stateful_recursion_limit` returns immediately with no events;
every `BeforeExecution` of a run started at level 0 has level at most the
limit; and with limit 0 every executed test is at level 0 (no stateful-derived
tests run). -/
theorem claim_C9 (specs : List TestSpec) (level limit : Nat) :
    (limit < level → run_tests limit level specs = [])
    ∧ (∀ e lv, Event.BeforeExecution e lv ∈ run_tests limit 0 specs → lv ≤ limit)
    ∧ (∀ e lv, Event.BeforeExecution e lv ∈ run_tests 0 0 specs → lv = 0) := by
  refine ⟨fun h => run_tests_gt limit level specs h, ?_, ?_⟩
  · intro e lv hm
    exact (run_tests_before_level limit 0 specs e lv hm).2
  · intro e lv hm
    exact Nat.le_zero.mp (run_tests_before_level 0 0 specs e lv hm).2

/-- Claim C9, witness: a call at level 2 with limit 1 yields nothing, and the
level-0 `BeforeExecution` of a limit-1 run is within the bound. -/
theorem claim_C9_witness :
    (1 < 2)
    ∧ run_tests 1 2 [TestSpec.node 0 (DrivenTest.runnable ⟨[], Raised.ok⟩) []] = []
    ∧ (Event.BeforeExecution 0 0
        ∈ run_tests 1 0 [TestSpec.node 0 (DrivenTest.runnable ⟨[], Raised.ok⟩) []])
    ∧ (0 : Nat) ≤ 1 := by
  refine ⟨by norm_num, (claim_C9 _ 2 1).1 (by norm_num), ?_, ?_⟩
  · simp [run_tests, run_test, isInterrupted]
  · exact (claim_C9 [TestSpec.node 0 (DrivenTest.runnable ⟨[], Raised.ok⟩) []] 2 1).2.1 0 0
      (by simp [run_tests, run_test, isInterrupted])

/-- Claim C10, witness: budget 100 ms, elapsed 150 ms, one passing and one
failing predicate — the failing synthetic check is on the TestResult, and the
persisted check list is exactly the two ordinary outcomes. -/
theorem claim_C10_witness :
    ("max_response_time" ∉ (["a", "b"] : List String))
    ∧ failureRecord "max_response_time" 7 (responseTimeMessage 100)
        ∈ (run_checks 7 [("a", CheckOutcome.pass), ("b", CheckOutcome.fail "x")] 150
            (some 100)).1.resultChecks
    ∧ (network_test_body 7 [("a", CheckOutcome.pass), ("b", CheckOutcome.fail "x")] 150
        (some 100) true).stored
        = some (Status.failure, [successRecord "a" 7, failureRecord "b" 7 "x"]) := by
  refine ⟨by decide, ?_, by decide⟩
  exact (claim_C10 7 [("a", CheckOutcome.pass), ("b", CheckOutcome.fail "x")] 150 (some 100)
    (by decide)).1 100 rfl (by norm_num) (by norm_num)

end Runner
